import Mathlib

/-!
Shallow embedding of the real-time message fan-out and persistence pipeline of
the pywhatsapp backend: the WebSocket connection registry (`app/ws/manager.py`),
the sync-to-async dispatch bridge (`notify_clients_sync`), and the message
persistence layer (`app/services/message_service.py`).

Conventions of the embedding:
- Python `dict` becomes an association list whose operations mirror dict
  semantics (first-key lookup, in-place replacement, `pop`).
- Python `set` of sockets becomes `Finset Nat` (socket handles carry no structure,
  modelled as naturals).
- Python `Optional[str]` becomes `Option String`; Python truthiness of an
  optional string (`if not phone`, `if message_id`) is modelled explicitly.
- The database session becomes an explicit `DB` value (list of rows plus a
  primary-key counter); `commit` either succeeds or raises, modelled by a
  boolean `commitFails` parameter; a raised exception is `Except.error`.
- `await ws.send_json(...)` either succeeds or raises, modelled by a
  per-socket failure predicate `fails : WS → Bool`.
Timestamps (`created_at` / `updated_at`) are real-time values irrelevant to
every claim and are omitted from the row model.
-/

/- ───────────────────────── Phone normalization ─────────────────────────
`_normalize_phone` from `app/services/message_service.py` and
`format_phone_number` from `app/services/whatsapp_handlers.py`.
Python `str.strip()` removes surrounding whitespace; `String.trim` is its
embedding. -/

/-- Drop leading whitespace characters from a character list. -/
def dropLeadingWS : List Char → List Char
  | [] => []
  | c :: rest => if c.isWhitespace then dropLeadingWS rest else c :: rest

/-- Python `str.strip()`: remove surrounding whitespace — drop the trailing
whitespace (leading on the reversed list, then reverse back), then the
leading whitespace. -/
def pyStrip (s : String) : String :=
  ⟨dropLeadingWS ((dropLeadingWS s.data.reverse).reverse)⟩

/-- Python `str.startswith('+')`. -/
def startsWithPlus (s : String) : Bool :=
  match s.data with
  | [] => false
  | c :: _ => c = '+'

/-- Python `f'+{phone}'`. -/
def plusPrefixed (s : String) : String :=
  ⟨'+' :: s.data⟩

def normalize_phone : Option String → Option String
  | none => none
  | some p =>
    -- `if not phone: return phone` (empty string is falsy)
    if p = "" then some p
    else
      -- `phone = str(phone).strip()`
      let q := pyStrip p
      -- `return phone if phone.startswith('+') else f'+{phone}'`
      if startsWithPlus q then some q else some (plusPrefixed q)

def format_phone_number : Option String → Option String
  | none => none
  | some p =>
    if p = "" then some p
    else
      let q := pyStrip p
      -- `if phone.startswith('+'): return phone` / `return f"+{phone}"`
      if startsWithPlus q then some q else some (plusPrefixed q)

/- ───────────────────────── Connection registry ─────────────────────────
`WebSocketConnectionManager` from `app/ws/manager.py`.
`self.active : Dict[str, Set[WebSocket]]` becomes an association list from
tenant id to a finite set of socket handles. -/

/-- Socket handles carry no internal structure; model them as naturals. -/
abbrev WS := Nat

/-- The registry state: `self.active`. -/
abbrev Registry := List (String × Finset WS)

/-- Python dict lookup: first entry with the given key. -/
def lookupKey : Registry → String → Option (Finset WS)
  | [], _ => none
  | (k, v) :: rest, t => if k = t then some v else lookupKey rest t

/-- Python dict assignment `d[k] = v`: replace the first entry with key `k`,
or append a fresh entry. -/
def setKey : Registry → String → Finset WS → Registry
  | [], k, v => [(k, v)]
  | (k', v') :: rest, k, v =>
    if k' = k then (k, v) :: rest else (k', v') :: setKey rest k v

/-- Python `d.pop(k, None)`: drop every entry with key `k`. -/
def popKey : Registry → String → Registry
  | [], _ => []
  | (k', v') :: rest, k =>
    if k' = k then popKey rest k else (k', v') :: popKey rest k

/-- Python `self.active.get(tenant_id, set())`. -/
def getSet (r : Registry) (t : String) : Finset WS :=
  (lookupKey r t).getD ∅

/-- Method `connect(tenant_id, websocket)`: after `websocket.accept()`,
`if tenant_id not in self.active: self.active[tenant_id] = set()` then
`self.active[tenant_id].add(websocket)`. -/
def connect (r : Registry) (t : String) (w : WS) : Registry :=
  let r1 := match lookupKey r t with
    | none => setKey r t ∅
    | some _ => r
  setKey r1 t (insert w (getSet r1 t))

/-- Method `disconnect(tenant_id, websocket)`: `conns.discard(websocket)` on the
tenant's set (a no-op when absent), then `if not conns:
self.active.pop(tenant_id, None)`; when the tenant is not a key, nothing
happens. -/
def disconnect (r : Registry) (t : String) (w : WS) : Registry :=
  match lookupKey r t with
  | none => r
  | some conns =>
    let conns' := conns.erase w
    if conns' = ∅ then popKey r t else setKey r t conns'

/-- Method `notify_clients(tenant_id, message_data)`: snapshot the tenant's
connections, return early when empty, attempt `send_json` on each socket
(`fails w = true` models the send raising), collect failures in `stale`,
and after the pass discard each stale socket from the live set, dropping the
tenant entry when it becomes empty.  Returns the new registry together with
the set of sockets whose send succeeded. -/
def notify_clients (r : Registry) (t : String) (fails : WS → Bool) :
    Registry × Finset WS :=
  let connections := getSet r t
  if connections = ∅ then (r, ∅)
  else
    let stale := connections.filter (fun w => fails w = true)
    let sent := connections.filter (fun w => fails w = false)
    if stale = ∅ then (r, sent)
    else
      let alive := getSet r t
      let alive' := alive \ stale
      if alive' = ∅ then (popKey r t, sent) else (setKey r t alive', sent)

/-- Alias `broadcast` of `notify_clients`. -/
def broadcast (r : Registry) (t : String) (fails : WS → Bool) :
    Registry × Finset WS :=
  notify_clients r t fails

/-- Method `connection_count(tenant_id=None)`. -/
def connection_count (r : Registry) (t : Option String) : Nat :=
  match t with
  | none => (r.map (fun kv => kv.2.card)).sum
  | some t => (getSet r t).card

/- ──────────────────── Sync-to-async dispatch bridge ────────────────────
`notify_clients_sync` from `app/ws/manager.py`.  The control flow is
embedded over an environment describing the outcome of each runtime
primitive the code calls:
- `anyioAvailable`: `import anyio` succeeds;
- `boundToLoop`: the calling worker thread is bound to a running event loop,
  so `anyio.from_thread.run` can hop into it (otherwise it raises
  `RuntimeError`);
- `deliveryExc`: the exception (if any) raised by the `notify_clients`
  coroutine body when it is actually run;
- `hasRunningLoop`: `asyncio.get_running_loop()` succeeds in this thread
  (otherwise it raises `RuntimeError`).
`loop.create_task` hands the coroutine to the loop fire-and-forget: its
eventual exception is never delivered to the caller.  The dedicated
background thread runs `_runner`, which wraps `asyncio.run(...)` in
`try/except Exception`. -/

inductive PyExc where
  | runtimeError
  | otherExc
deriving DecidableEq, Repr

/-- Which dispatch strategy ended up delivering (or scheduling) the
broadcast. -/
inductive Strategy where
  | anyioBridge
  | createTask
  | backgroundThread
deriving DecidableEq, Repr

structure SyncEnv where
  anyioAvailable : Bool
  boundToLoop : Bool
  deliveryExc : Option PyExc
  hasRunningLoop : Bool
deriving DecidableEq, Repr

/-- Outcome of `anyio.from_thread.run(self.notify_clients, ...)`: raises
`RuntimeError` when the thread is not bound to a loop, otherwise runs the
coroutine synchronously and propagates its exception, if any. -/
def anyioFromThreadRun (env : SyncEnv) : Option PyExc :=
  if env.boundToLoop = false then some PyExc.runtimeError else env.deliveryExc

/-- The `_runner` body of the dedicated background thread: it runs
`asyncio.run(self.notify_clients(...))` inside `try/except Exception`, so
every exception of the coroutine is logged and swallowed. -/
def runnerResult (deliveryExc : Option PyExc) : Except PyExc Unit :=
  match deliveryExc with
  | some _ => Except.ok ()   -- `except Exception as e: log.error(...)`
  | none => Except.ok ()

/-- Method `notify_clients_sync(tenant_id, message_data)`: the three-tier fallback.
Strategy 1 sits inside an outer `try/except Exception` (so a failed import
or a non-`RuntimeError` from the bridge also falls through) with an inner
`except RuntimeError`; strategy 2 catches `RuntimeError` from
`asyncio.get_running_loop()`; strategy 3 starts a daemon thread whose body
swallows every exception.  The result names the strategy used; an
`Except.error` would model an exception escaping to the caller. -/
def notify_clients_sync (env : SyncEnv) : Except PyExc Strategy :=
  -- strategy 1: anyio bridge
  let step1 : Option Strategy :=
    if env.anyioAvailable then
      match anyioFromThreadRun env with
      | none => some Strategy.anyioBridge                 -- `return`
      | some PyExc.runtimeError => none                   -- inner `except RuntimeError`
      | some PyExc.otherExc => none                       -- outer `except Exception`
    else none                                             -- import failed: outer `except`
  match step1 with
  | some s => Except.ok s
  | none =>
    if env.hasRunningLoop then
      -- strategy 2: `loop.create_task(...)` fire-and-forget; the task's
      -- exception is unobserved by the caller
      Except.ok Strategy.createTask
    else
      -- strategy 3: daemon thread running `_runner`
      match runnerResult env.deliveryExc with
      | Except.ok _ => Except.ok Strategy.backgroundThread
      | Except.error e => Except.error e

/- ───────────────────────── Message persistence ─────────────────────────
`Message` model from `app/models/message.py` (plus `BaseModel` columns from
`app/models/base.py`, timestamps omitted), and the persistence methods of
`MessageService` from `app/services/message_service.py`. -/

structure Message where
  id : Nat
  tenant_id : String
  message_id : Option String
  phone : Option String
  contact_name : Option String
  text : Option String
  message_type : Option String
  direction : String
  status : Option String
  meta_data : Option (List (String × String))
deriving DecidableEq, Repr

/-- The message table plus the autoincrement primary-key counter.  The
source schema also declares a unique index on `messages.message_id`
(`unique=True` in `app/models/message.py`, created at startup by
`Base.metadata.create_all`): the raw structure can represent states that
violate it, so the index is modelled separately — `uniqueViolation` is the
commit-time check, `UniqueIndexOk` the well-formedness predicate the
program's tables satisfy, and `save_message_pg` the save operation whose
commit outcome is determined by the index. -/
structure DB where
  rows : List Message
  nextId : Nat
deriving DecidableEq, Repr

def DB.empty : DB := { rows := [], nextId := 1 }

/-- Row predicate of `db.query(Message).filter(Message.message_id ==
message_id, Message.tenant_id == tenant_id)`. -/
def matchesKey (t mid : String) (m : Message) : Bool :=
  m.message_id == some mid && m.tenant_id == t

/-- Query `...first()`: the first row matching (message_id, tenant_id). -/
def firstMatch (rows : List Message) (t mid : String) : Option Message :=
  rows.find? (matchesKey t mid)

/-- Python truthiness of an `Optional[str]` (`if message_id:`). -/
def strTruthy : Option String → Bool
  | none => false
  | some s => !(s == "")

/-- The duplicate lookup of `_save_message`: performed only when
`message_id` is truthy. -/
def dupLookup (db : DB) (tenant_id : String) (message_id : Option String) :
    Option Message :=
  if strTruthy message_id then
    match message_id with
    | some mid => firstMatch db.rows tenant_id mid
    | none => none
  else none

/-- Method `MessageService._save_message`: normalize the phone, return the existing
row when a truthy `message_id` already exists for the tenant, otherwise
insert a new row (`status` takes the column default `'sent'`) and commit.
The commit outcome is a parameter of the method-level embedding:
`commitFails = true` models `db.add`/`db.commit` raising (from any cause,
an `IntegrityError` of the unique index on `message_id` included): the
`except` branch rolls the session back (the table is unchanged) and
re-raises.  `save_message_pg` below instantiates the parameter with the
actual commit behaviour of the database schema. -/
def save_message (db : DB) (commitFails : Bool) (tenant_id : String)
    (message_id : Option String) (phone : String) (text : Option String)
    (message_type : String) (direction : String)
    (contact_name : Option String)
    (metadata : Option (List (String × String))) :
    DB × Except Unit Message :=
  let phoneN := normalize_phone (some phone)
  match dupLookup db tenant_id message_id with
  | some existing => (db, Except.ok existing)
  | none =>
    let message : Message :=
      { id := db.nextId
        tenant_id := tenant_id
        message_id := message_id
        phone := phoneN
        contact_name := contact_name
        text := text
        message_type := some message_type
        direction := direction
        status := some ("sent")   -- column default on insert
        meta_data := metadata }
    if commitFails then
      (db, Except.error ())       -- `db.rollback()` then `raise`
    else
      ({ rows := db.rows ++ [message], nextId := db.nextId + 1 },
       Except.ok message)

/-- The row constructed and inserted by `_save_message` on its insert path
(`Message(...)` with the `status` column default). -/
def saveRow (db : DB) (tenant_id : String) (message_id : Option String)
    (phone : String) (text : Option String) (message_type direction : String)
    (contact_name : Option String)
    (metadata : Option (List (String × String))) : Message :=
  { id := db.nextId
    tenant_id := tenant_id
    message_id := message_id
    phone := normalize_phone (some phone)
    contact_name := contact_name
    text := text
    message_type := some message_type
    direction := direction
    status := some ("sent")
    meta_data := metadata }

/-- Method `MessageService.save_incoming_message`: delegates to `_save_message`
with `direction="incoming"`. -/
def save_incoming_message (db : DB) (commitFails : Bool) (tenant_id : String)
    (message_id : Option String) (phone : String)
    (contact_name : Option String) (text : Option String)
    (message_type : String)
    (metadata : Option (List (String × String))) :
    DB × Except Unit Message :=
  save_message db commitFails tenant_id message_id phone text message_type
    ("incoming") contact_name metadata

/-- In-place status overwrite of the first row matching (message_id,
tenant_id): the session holds the queried ORM object, `message.status =
status` mutates it, `db.commit()` persists it. -/
def overwriteStatus : List Message → String → String → String → List Message
  | [], _, _, _ => []
  | m :: rest, t, mid, s =>
    if matchesKey t mid m then { m with status := some s } :: rest
    else m :: overwriteStatus rest t mid s

/-- Method `MessageService.update_message_status`: look the row up by
(message_id, tenant_id); when absent, log and return `None` leaving the
table untouched; when present, overwrite `status` unconditionally and
commit.  The whole body is wrapped in `try/except`, which rolls back and
returns `None` on any exception (`commitFails` models a failing commit). -/
def update_message_status (db : DB) (commitFails : Bool)
    (tenant_id message_id status : String) : DB × Option Message :=
  match firstMatch db.rows tenant_id message_id with
  | none => (db, none)
  | some m =>
    if commitFails then
      (db, none)                  -- `except`: `db.rollback()`; `return None`
    else
      ({ db with rows := overwriteStatus db.rows tenant_id message_id status },
       some { m with status := some status })

/-- Number of rows matching (tenant_id, message_id). -/
def countMatching (rows : List Message) (t mid : String) : Nat :=
  (rows.filter (matchesKey t mid)).length

/-- Commit-time check of the unique index on `messages.message_id`
(`unique=True, index=True` in `app/models/message.py`, created at startup
by `Base.metadata.create_all`): inserting a row whose non-null message_id
equals an existing row's raises `IntegrityError`.  The index is global
(on the column alone, not per tenant), and NULL values never collide. -/
def uniqueViolation (db : DB) (message_id : Option String) : Bool :=
  match message_id with
  | none => false
  | some mid => db.rows.any (fun m => m.message_id == some mid)

/-- Well-formedness of the messages table under the unique index: no two
rows share a non-null message_id. -/
def UniqueIndexOk (db : DB) : Prop :=
  db.rows.Pairwise
    (fun a b => ∀ mid, a.message_id = some mid → b.message_id ≠ some mid)

/-- `_save_message` running against the program's database schema: the
commit of the insert path raises exactly when a fault is injected
(`commitFails`) or the inserted row trips the unique index on
`message_id`. -/
def save_message_pg (db : DB) (commitFails : Bool) (tenant_id : String)
    (message_id : Option String) (phone : String) (text : Option String)
    (message_type : String) (direction : String)
    (contact_name : Option String)
    (metadata : Option (List (String × String))) :
    DB × Except Unit Message :=
  save_message db (commitFails || uniqueViolation db message_id) tenant_id
    message_id phone text message_type direction contact_name metadata

/-- `save_incoming_message` against the program's database schema. -/
def save_incoming_message_pg (db : DB) (commitFails : Bool)
    (tenant_id : String) (message_id : Option String) (phone : String)
    (contact_name : Option String) (text : Option String)
    (message_type : String)
    (metadata : Option (List (String × String))) :
    DB × Except Unit Message :=
  save_message_pg db commitFails tenant_id message_id phone text message_type
    ("incoming") contact_name metadata

/-- The registry well-formedness invariant: every tenant key present maps to
a non-empty socket set. -/
def GoodReg (r : Registry) : Prop :=
  ∀ kv ∈ r, (kv.2 : Finset WS).Nonempty

/-- Registry states reachable from the initial empty registry (`self.active
= {}` in `__init__`) by any sequence of `connect`, `disconnect` and
`notify_clients` operations. -/
inductive Reachable : Registry → Prop where
  | init : Reachable []
  | conn (r : Registry) (t : String) (w : WS) :
      Reachable r → Reachable (connect r t w)
  | disc (r : Registry) (t : String) (w : WS) :
      Reachable r → Reachable (disconnect r t w)
  | bcast (r : Registry) (t : String) (fails : WS → Bool) :
      Reachable r → Reachable (notify_clients r t fails).1

/- ───────────────────────── Registry lemmas ───────────────────────── -/

theorem lookupKey_setKey_self (r : Registry) (t : String) (v : Finset WS) :
    lookupKey (setKey r t v) t = some v := by
  induction r with
  | nil => simp [setKey, lookupKey]
  | cons kv rest ih =>
    obtain ⟨k, u⟩ := kv
    by_cases h : k = t
    · simp [setKey, h, lookupKey]
    · simp [setKey, h, lookupKey, ih]

theorem lookupKey_setKey_ne (r : Registry) (t t' : String) (v : Finset WS)
    (h : t' ≠ t) : lookupKey (setKey r t v) t' = lookupKey r t' := by
  induction r with
  | nil => simp [setKey, lookupKey, Ne.symm h]
  | cons kv rest ih =>
    obtain ⟨k, u⟩ := kv
    by_cases hk : k = t
    · subst hk
      simp [setKey, lookupKey, Ne.symm h]
    · simp [setKey, hk, lookupKey, ih]

theorem lookupKey_popKey_self (r : Registry) (t : String) :
    lookupKey (popKey r t) t = none := by
  induction r with
  | nil => simp [popKey, lookupKey]
  | cons kv rest ih =>
    obtain ⟨k, u⟩ := kv
    by_cases h : k = t
    · simp [popKey, h, ih]
    · simp [popKey, h, lookupKey, ih]

theorem lookupKey_popKey_ne (r : Registry) (t t' : String)
    (h : t' ≠ t) : lookupKey (popKey r t) t' = lookupKey r t' := by
  induction r with
  | nil => simp [popKey]
  | cons kv rest ih =>
    obtain ⟨k, u⟩ := kv
    by_cases hk : k = t
    · subst hk
      simp [popKey, lookupKey, Ne.symm h, ih]
    · simp [popKey, hk, lookupKey, ih]

theorem setKey_eq_of_lookup (r : Registry) (t : String) (v : Finset WS)
    (h : lookupKey r t = some v) : setKey r t v = r := by
  induction r with
  | nil => simp [lookupKey] at h
  | cons kv rest ih =>
    obtain ⟨k, u⟩ := kv
    by_cases hk : k = t
    · simp [lookupKey, hk] at h
      simp [setKey, hk, h]
    · simp [lookupKey, hk] at h
      simp [setKey, hk, ih h]

theorem setKey_setKey_of_none (r : Registry) (t : String) (v v' : Finset WS)
    (h : lookupKey r t = none) : setKey (setKey r t v) t v' = setKey r t v' := by
  induction r with
  | nil => simp [setKey]
  | cons kv rest ih =>
    obtain ⟨k, u⟩ := kv
    by_cases hk : k = t
    · simp [lookupKey, hk] at h
    · simp [lookupKey, hk] at h
      simp [setKey, hk, ih h]

theorem mem_setKey {kv : String × Finset WS} {r : Registry} {t : String}
    {v : Finset WS} (h : kv ∈ setKey r t v) : kv ∈ r ∨ kv = (t, v) := by
  induction r with
  | nil =>
    simp [setKey] at h
    simp [h]
  | cons kv' rest ih =>
    obtain ⟨k, u⟩ := kv'
    by_cases hk : k = t
    · simp [setKey, hk] at h
      rcases h with h | h
      · right; simp [h]
      · left; simp [h]
    · simp [setKey, hk] at h
      rcases h with h | h
      · left; simp [h]
      · rcases ih h with h' | h'
        · left
          exact List.mem_cons_of_mem _ h'
        · right; exact h'

theorem mem_popKey {kv : String × Finset WS} {r : Registry} {t : String}
    (h : kv ∈ popKey r t) : kv ∈ r := by
  induction r with
  | nil => simp [popKey] at h
  | cons kv' rest ih =>
    obtain ⟨k, u⟩ := kv'
    by_cases hk : k = t
    · simp [popKey, hk] at h
      exact List.mem_cons_of_mem _ (ih h)
    · simp [popKey, hk] at h
      rcases h with h | h
      · simp [h]
      · exact List.mem_cons_of_mem _ (ih h)

theorem connect_eq (r : Registry) (t : String) (w : WS) :
    connect r t w = setKey r t (insert w (getSet r t)) := by
  cases h : lookupKey r t with
  | none =>
    simp [connect, h, getSet, lookupKey_setKey_self,
      setKey_setKey_of_none r t _ _ h]
  | some s =>
    simp [connect, h, getSet]

theorem getSet_connect (r : Registry) (t : String) (w : WS) :
    getSet (connect r t w) t = insert w (getSet r t) := by
  rw [connect_eq]
  simp [getSet, lookupKey_setKey_self]

theorem lookupKey_connect_ne (r : Registry) (t t' : String) (w : WS)
    (h : t' ≠ t) : lookupKey (connect r t w) t' = lookupKey r t' := by
  rw [connect_eq]
  exact lookupKey_setKey_ne r t t' _ h

theorem getSet_disconnect (r : Registry) (t : String) (w : WS) :
    getSet (disconnect r t w) t = (getSet r t).erase w := by
  cases h : lookupKey r t with
  | none =>
    simp [disconnect, h, getSet]
  | some conns =>
    by_cases he : conns.erase w = ∅
    · simp [disconnect, h, he, getSet, lookupKey_popKey_self]
    · simp [disconnect, h, he, getSet, lookupKey_setKey_self]

theorem lookupKey_disconnect_ne (r : Registry) (t t' : String) (w : WS)
    (h : t' ≠ t) : lookupKey (disconnect r t w) t' = lookupKey r t' := by
  cases hl : lookupKey r t with
  | none => simp [disconnect, hl]
  | some conns =>
    by_cases he : conns.erase w = ∅
    · simp [disconnect, hl, he, lookupKey_popKey_ne r t t' h]
    · simp [disconnect, hl, he, lookupKey_setKey_ne r t t' _ h]

theorem getSet_setKey_self (r : Registry) (t : String) (v : Finset WS) :
    getSet (setKey r t v) t = v := by
  simp [getSet, lookupKey_setKey_self]

theorem getSet_popKey_self (r : Registry) (t : String) :
    getSet (popKey r t) t = ∅ := by
  simp [getSet, lookupKey_popKey_self]

/- ─────────────────── Invariant preservation lemmas ─────────────────── -/

theorem goodReg_setKey {r : Registry} {t : String} {v : Finset WS}
    (hg : GoodReg r) (hv : v.Nonempty) : GoodReg (setKey r t v) := by
  intro kv hkv
  rcases mem_setKey hkv with h | h
  · exact hg kv h
  · rw [h]
    exact hv

theorem goodReg_popKey {r : Registry} {t : String} (hg : GoodReg r) :
    GoodReg (popKey r t) :=
  fun kv hkv => hg kv (mem_popKey hkv)

theorem goodReg_connect {r : Registry} (t : String) (w : WS)
    (hg : GoodReg r) : GoodReg (connect r t w) := by
  rw [connect_eq]
  exact goodReg_setKey hg (Finset.insert_nonempty _ _)

theorem goodReg_disconnect {r : Registry} (t : String) (w : WS)
    (hg : GoodReg r) : GoodReg (disconnect r t w) := by
  cases h : lookupKey r t with
  | none =>
    simp only [disconnect, h]
    exact hg
  | some conns =>
    by_cases he : conns.erase w = ∅
    · simp [disconnect, h, he]
      exact goodReg_popKey hg
    · simp [disconnect, h, he]
      exact goodReg_setKey hg (Finset.nonempty_iff_ne_empty.mpr he)

theorem goodReg_notify {r : Registry} (t : String) (fails : WS → Bool)
    (hg : GoodReg r) : GoodReg (notify_clients r t fails).1 := by
  by_cases hc : getSet r t = ∅
  · simp [notify_clients, hc]
    exact hg
  · by_cases hs : (getSet r t).filter (fun w => fails w = true) = ∅
    · simp [notify_clients, hc, hs]
      exact hg
    · by_cases ha :
        getSet r t \ (getSet r t).filter (fun w => fails w = true) = ∅
      · simp [notify_clients, hc, hs, ha]
        exact goodReg_popKey hg
      · simp [notify_clients, hc, hs, ha]
        exact goodReg_setKey hg (Finset.nonempty_iff_ne_empty.mpr ha)

/- ─────────────────── Message persistence lemmas ─────────────────── -/

theorem matchesKey_setStatus (t mid s : String) (m : Message) :
    matchesKey t mid { m with status := some s } = matchesKey t mid m := rfl

theorem overwriteStatus_spec (rows : List Message) (t mid s : String)
    (m : Message) (h : firstMatch rows t mid = some m) :
    firstMatch (overwriteStatus rows t mid s) t mid
      = some { m with status := some s } ∧
    (overwriteStatus rows t mid s).length = rows.length := by
  induction rows with
  | nil => simp [firstMatch] at h
  | cons m0 rest ih =>
    by_cases hm : matchesKey t mid m0 = true
    · rw [firstMatch, List.find?_cons_of_pos _ hm] at h
      injection h with h
      subst h
      have hm' : matchesKey t mid { m0 with status := some s } = true := by
        rw [matchesKey_setStatus]
        exact hm
      constructor
      · simp [overwriteStatus, hm, firstMatch, List.find?_cons_of_pos _ hm']
      · simp [overwriteStatus, hm]
    · rw [firstMatch, List.find?_cons_of_neg _ hm] at h
      have hrest := ih h
      constructor
      · simp [overwriteStatus, hm, firstMatch, List.find?_cons_of_neg _ hm]
        exact hrest.1
      · simp [overwriteStatus, hm, hrest.2]

theorem firstMatch_append_of_none (rows extra : List Message) (t mid : String)
    (h : firstMatch rows t mid = none) :
    firstMatch (rows ++ extra) t mid = firstMatch extra t mid := by
  induction rows with
  | nil => simp [firstMatch]
  | cons m0 rest ih =>
    by_cases hm : matchesKey t mid m0 = true
    · rw [firstMatch, List.find?_cons_of_pos _ hm] at h
      simp at h
    · rw [firstMatch, List.find?_cons_of_neg _ hm] at h
      rw [List.cons_append, firstMatch, List.find?_cons_of_neg _ hm]
      exact ih h

theorem countMatching_append_single_of_none (rows : List Message)
    (t mid : String) (m : Message) (h : firstMatch rows t mid = none)
    (hm : matchesKey t mid m = true) :
    countMatching (rows ++ [m]) t mid = 1 ∧
    (rows ++ [m]).filter (matchesKey t mid) = [m] := by
  have hnil : rows.filter (matchesKey t mid) = [] := by
    rw [List.filter_eq_nil_iff]
    exact List.find?_eq_none.mp h
  constructor
  · simp [countMatching, List.filter_append, hnil, hm]
  · simp [List.filter_append, hnil, hm]

/-- Unpack a successful duplicate lookup: the returned row sits in the
table. -/
theorem dupLookup_mem {db : DB} {t : String} {mid : Option String}
    {m : Message} (h : dupLookup db t mid = some m) : m ∈ db.rows := by
  unfold dupLookup at h
  by_cases ht : strTruthy mid = true
  · rw [if_pos ht] at h
    cases mid with
    | none => simp at h
    | some s => exact List.mem_of_find?_eq_some h
  · rw [if_neg ht] at h
    simp at h

/-- Characterization of `_save_message` on its insert path. -/
theorem save_message_insert (db : DB) (t : String) (mid : Option String)
    (phone : String) (text : Option String) (mtype dir : String)
    (cname : Option String) (md : Option (List (String × String)))
    (hd : dupLookup db t mid = none) :
    save_message db false t mid phone text mtype dir cname md
      = ({ rows := db.rows ++ [saveRow db t mid phone text mtype dir cname md],
           nextId := db.nextId + 1 },
         Except.ok (saveRow db t mid phone text mtype dir cname md)) := by
  simp [save_message, hd, saveRow]

/-- Characterization of `_save_message` on its duplicate path. -/
theorem save_message_dup (db : DB) (cf : Bool) (t : String)
    (mid : Option String) (phone : String) (text : Option String)
    (mtype dir : String) (cname : Option String)
    (md : Option (List (String × String))) (m : Message)
    (hd : dupLookup db t mid = some m) :
    save_message db cf t mid phone text mtype dir cname md
      = (db, Except.ok m) := by
  simp [save_message, hd]

/-- When no row anywhere collides on the message_id, the per-tenant lookup
finds nothing either. -/
theorem firstMatch_eq_none_of_no_collision (db : DB) (t mid : String)
    (hu : uniqueViolation db (some mid) = false) :
    firstMatch db.rows t mid = none := by
  rw [firstMatch, List.find?_eq_none]
  intro m hm hpm
  have hmid : m.message_id = some mid := by
    simp [matchesKey] at hpm
    exact hpm.1
  have hany : db.rows.any (fun m => m.message_id == some mid) = true :=
    List.any_eq_true.mpr ⟨m, hm, by simp [hmid]⟩
  simp [uniqueViolation, hany] at hu

/-- The schema-level save preserves the unique index on message_id: from a
well-formed table, no sequence of saves can produce two rows sharing a
non-null message_id. -/
theorem uniqueIndexOk_save_message_pg (db : DB) (cf : Bool) (t : String)
    (mid : Option String) (phone : String) (text : Option String)
    (mtype dir : String) (cname : Option String)
    (md : Option (List (String × String))) (h : UniqueIndexOk db) :
    UniqueIndexOk
      (save_message_pg db cf t mid phone text mtype dir cname md).1 := by
  rw [save_message_pg]
  cases hd : dupLookup db t mid with
  | some m =>
    rw [save_message_dup db _ t mid phone text mtype dir cname md m hd]
    exact h
  | none =>
    cases hflag : (cf || uniqueViolation db mid) with
    | true =>
      have e : save_message db true t mid phone text mtype dir cname md
          = (db, Except.error ()) := by
        simp [save_message, hd]
      rw [e]
      exact h
    | false =>
      have hnv : uniqueViolation db mid = false :=
        (Bool.or_eq_false_iff.mp hflag).2
      rw [save_message_insert db t mid phone text mtype dir cname md hd]
      unfold UniqueIndexOk at h ⊢
      rw [List.pairwise_append]
      refine ⟨h, by simp, ?_⟩
      intro a ha b hb
      rw [List.mem_singleton] at hb
      subst hb
      intro midv hma
      cases mid with
      | none => simp [saveRow]
      | some m0 =>
        simp [saveRow]
        intro hbm
        have hany : db.rows.any (fun m => m.message_id == some m0) = true :=
          List.any_eq_true.mpr ⟨a, ha, by simp [hma, hbm]⟩
        simp [uniqueViolation, hany] at hnv

/- ───────────────────────── Claim theorems ───────────────────────── -/

/-- C3: for every tenant_id and message_id with no matching message row,
`update_message_status` does not raise (the result is an ordinary pair, and
this holds whether or not the commit would fail), leaves the message table
unchanged, and returns the not-found indicator `None`. -/
theorem update_status_not_found_noop (db : DB) (commitFails : Bool)
    (t mid s : String) (h : firstMatch db.rows t mid = none) :
    update_message_status db commitFails t mid s = (db, none) := by
  simp [update_message_status, h]

theorem update_status_not_found_noop_witness :
    update_message_status DB.empty false ("t1") ("wamid.X") ("read")
      = (DB.empty, none) :=
  update_status_not_found_noop DB.empty false ("t1") ("wamid.X") ("read")
    (by decide)

/-- C4: status updates are last-write-wins with no monotonicity check: for
every existing row matching (tenant_id, message_id) and every status value,
`update_message_status` overwrites the row's status unconditionally (no
hypothesis relates the new status to the current one), returns the updated
row, keeps no history (the table keeps the same number of rows), and a
second update with any other status — including an out-of-order one such as
"delivered" after "read" — simply overwrites again. -/
theorem update_status_last_write_wins (db : DB) (t mid s s2 : String)
    (m : Message) (h : firstMatch db.rows t mid = some m) :
    (update_message_status db false t mid s).2
      = some { m with status := some s } ∧
    firstMatch (update_message_status db false t mid s).1.rows t mid
      = some { m with status := some s } ∧
    (update_message_status db false t mid s).1.rows.length
      = db.rows.length ∧
    (update_message_status
        (update_message_status db false t mid s).1 false t mid s2).2
      = some { m with status := some s2 } := by
  have hs1 := overwriteStatus_spec db.rows t mid s m h
  have e1 : update_message_status db false t mid s
      = ({ db with rows := overwriteStatus db.rows t mid s },
         some { m with status := some s }) := by
    simp [update_message_status, h]
  refine ⟨by rw [e1], ?_, ?_, ?_⟩
  · rw [e1]
    exact hs1.1
  · rw [e1]
    exact hs1.2
  · rw [e1]
    simp [update_message_status, hs1.1]

theorem update_status_last_write_wins_witness :
    (update_message_status
      { rows := [{ id := 1, tenant_id := ("t1"), message_id := some ("w1"),
                   phone := some ("+1"), contact_name := none, text := none,
                   message_type := some ("text"), direction := ("incoming"),
                   status := some ("read"), meta_data := none }],
        nextId := 2 } false ("t1") ("w1") ("delivered")).2
      = some { id := 1, tenant_id := ("t1"), message_id := some ("w1"),
               phone := some ("+1"), contact_name := none, text := none,
               message_type := some ("text"), direction := ("incoming"),
               status := some ("delivered"), meta_data := none } :=
  (update_status_last_write_wins
    { rows := [{ id := 1, tenant_id := ("t1"), message_id := some ("w1"),
                 phone := some ("+1"), contact_name := none, text := none,
                 message_type := some ("text"), direction := ("incoming"),
                 status := some ("read"), meta_data := none }],
      nextId := 2 } ("t1") ("w1") ("delivered") ("sent")
    { id := 1, tenant_id := ("t1"), message_id := some ("w1"),
      phone := some ("+1"), contact_name := none, text := none,
      message_type := some ("text"), direction := ("incoming"),
      status := some ("read"), meta_data := none } (by decide)).1

/-- C5 counterexample: the claim "for every input already starting with
'+', normalize returns the input unchanged" fails on the code: an input
with surrounding whitespace, such as "+919876543210 ", starts with '+' but
is returned stripped, hence changed. -/
theorem normalize_phone_not_identity_on_plus_input :
    startsWithPlus ("+919876543210 ") = true ∧
    normalize_phone (some ("+919876543210 ")) = some ("+919876543210") ∧
    normalize_phone (some ("+919876543210 ")) ≠ some ("+919876543210 ") := by
  decide

/-- C5 (amended): phone normalization is a pure function with
`normalize("919876543210") = "+919876543210"`, and every non-empty input
that is free of surrounding whitespace and starts with '+' is returned
unchanged (an input with surrounding whitespace is first stripped); the
same holds for the webhook-side `format_phone_number`. -/
theorem normalize_phone_pure_spec (p : String) (h1 : p ≠ "")
    (h2 : pyStrip p = p) (h3 : startsWithPlus p = true) :
    normalize_phone (some p) = some p ∧
    format_phone_number (some p) = some p ∧
    normalize_phone (some ("919876543210")) = some ("+919876543210") ∧
    format_phone_number (some ("919876543210")) = some ("+919876543210") := by
  refine ⟨?_, ?_, by decide, by decide⟩
  · simp [normalize_phone, h1, h2, h3]
  · simp [format_phone_number, h1, h2, h3]

theorem normalize_phone_pure_spec_witness :
    normalize_phone (some ("+919876543210")) = some ("+919876543210") ∧
    format_phone_number (some ("+919876543210")) = some ("+919876543210") := by
  have h := normalize_phone_pure_spec ("+919876543210") (by decide) (by decide)
    (by decide)
  exact ⟨h.1, h.2.1⟩

/-- C7: frame property of `disconnect` and `connect`: `disconnect(t, w)`
removes exactly `w` from `t`'s entry and touches no other tenant's entry;
`connect(t, w2)` only inserts `w2` into `t`'s entry and touches no other
tenant's entry; hence a `disconnect` followed by a `connect` for the same
tenant never loses any other previously-registered socket. -/
theorem disconnect_connect_frame (r : Registry) (t : String) (w w2 : WS) :
    (∀ t', t' ≠ t → lookupKey (disconnect r t w) t' = lookupKey r t') ∧
    getSet (disconnect r t w) t = (getSet r t).erase w ∧
    (∀ t', t' ≠ t → lookupKey (connect r t w2) t' = lookupKey r t') ∧
    getSet (connect r t w2) t = insert w2 (getSet r t) ∧
    (∀ x ∈ getSet r t, x ≠ w →
      x ∈ getSet (connect (disconnect r t w) t w2) t) := by
  refine ⟨fun t' h => lookupKey_disconnect_ne r t t' w h,
    getSet_disconnect r t w,
    fun t' h => lookupKey_connect_ne r t t' w2 h,
    getSet_connect r t w2, ?_⟩
  intro x hx hxw
  rw [getSet_connect, getSet_disconnect]
  exact Finset.mem_insert_of_mem (Finset.mem_erase.mpr ⟨hxw, hx⟩)

theorem disconnect_connect_frame_witness :
    (2 : WS) ∈ getSet
      (connect (disconnect [(("a"), ({1, 2} : Finset WS))] ("a") 1) ("a") 3)
      ("a") :=
  (disconnect_connect_frame [(("a"), ({1, 2} : Finset WS))] ("a") 1 3).2.2.2.2
    2 (by decide) (by decide)

/-- C10 (implicit): `connect` is idempotent for a socket already registered
under the tenant: the registry state is literally unchanged, so neither the
tenant's connection count nor the global one grows. -/
theorem connect_idempotent (r : Registry) (t : String) (w : WS)
    (h : w ∈ getSet r t) :
    connect r t w = r ∧
    connection_count (connect r t w) (some t) = connection_count r (some t) ∧
    connection_count (connect r t w) none = connection_count r none := by
  have hins : insert w (getSet r t) = getSet r t := Finset.insert_eq_self.mpr h
  have hlk : lookupKey r t = some (getSet r t) := by
    cases hl : lookupKey r t with
    | none =>
      exfalso
      rw [getSet, hl] at h
      simp at h
    | some s =>
      simp [getSet, hl]
  have heq : connect r t w = r := by
    rw [connect_eq, hins]
    exact setKey_eq_of_lookup r t _ hlk
  exact ⟨heq, by rw [heq], by rw [heq]⟩

theorem connect_idempotent_witness :
    connect [(("a"), ({5} : Finset WS))] ("a") 5
      = [(("a"), ({5} : Finset WS))] ∧
    connection_count (connect [(("a"), ({5} : Finset WS))] ("a") 5)
        (some ("a"))
      = connection_count [(("a"), ({5} : Finset WS))] (some ("a")) := by
  have h := connect_idempotent [(("a"), ({5} : Finset WS))] ("a") 5 (by decide)
  exact ⟨h.1, h.2.1⟩

/-- C2: for every tenant with at least one registered connection,
`notify_clients` attempts delivery to every socket registered at call time
(the successful deliveries are exactly the registered sockets whose send
does not raise); every socket whose send raises is removed from the
tenant's registry entry after the pass, every socket whose send succeeds
remains registered, and no other tenant's entry is touched. -/
theorem broadcast_delivery_and_stale_cleanup (r : Registry) (t : String)
    (fails : WS → Bool) (h : (getSet r t).Nonempty) :
    (notify_clients r t fails).2
      = (getSet r t).filter (fun w => fails w = false) ∧
    (∀ w ∈ getSet r t, fails w = true →
      w ∉ getSet (notify_clients r t fails).1 t) ∧
    (∀ w ∈ getSet r t, fails w = false →
      w ∈ getSet (notify_clients r t fails).1 t) ∧
    (∀ t', t' ≠ t →
      lookupKey (notify_clients r t fails).1 t' = lookupKey r t') := by
  have hc : ¬(getSet r t = ∅) := Finset.nonempty_iff_ne_empty.mp h
  by_cases hs : (getSet r t).filter (fun w => fails w = true) = ∅
  · have e : notify_clients r t fails
        = (r, (getSet r t).filter (fun w => fails w = false)) := by
      simp [notify_clients, hc, hs]
    rw [e]
    refine ⟨rfl, ?_, ?_, fun t' _ => rfl⟩
    · intro w hw hf
      exfalso
      have hmem : w ∈ (getSet r t).filter (fun w => fails w = true) :=
        Finset.mem_filter.mpr ⟨hw, hf⟩
      rw [hs] at hmem
      simp at hmem
    · intro w hw _
      exact hw
  · by_cases ha :
      getSet r t \ (getSet r t).filter (fun w => fails w = true) = ∅
    · have e : notify_clients r t fails
          = (popKey r t, (getSet r t).filter (fun w => fails w = false)) := by
        simp [notify_clients, hc, hs, ha]
      rw [e]
      refine ⟨rfl, ?_, ?_, fun t' ht' => lookupKey_popKey_ne r t t' ht'⟩
      · intro w hw hf
        rw [getSet_popKey_self]
        exact Finset.not_mem_empty w
      · intro w hw hf
        exfalso
        have hmem :
            w ∈ getSet r t \ (getSet r t).filter (fun w => fails w = true) :=
          Finset.mem_sdiff.mpr ⟨hw, fun hst => by
            have hft := (Finset.mem_filter.mp hst).2
            rw [hf] at hft
            simp at hft⟩
        rw [ha] at hmem
        simp at hmem
    · have e : notify_clients r t fails
          = (setKey r t
              (getSet r t \ (getSet r t).filter (fun w => fails w = true)),
             (getSet r t).filter (fun w => fails w = false)) := by
        simp [notify_clients, hc, hs, ha]
      rw [e]
      refine ⟨rfl, ?_, ?_, fun t' ht' => lookupKey_setKey_ne r t t' _ ht'⟩
      · intro w hw hf
        rw [getSet_setKey_self]
        intro hmem
        exact (Finset.mem_sdiff.mp hmem).2 (Finset.mem_filter.mpr ⟨hw, hf⟩)
      · intro w hw hf
        rw [getSet_setKey_self]
        exact Finset.mem_sdiff.mpr ⟨hw, fun hst => by
          have hft := (Finset.mem_filter.mp hst).2
          rw [hf] at hft
          simp at hft⟩

theorem broadcast_delivery_and_stale_cleanup_witness :
    (2 : WS) ∉ getSet
      (notify_clients [(("a"), ({1, 2} : Finset WS))] ("a")
        (fun w => w == 2)).1 ("a") ∧
    (1 : WS) ∈ getSet
      (notify_clients [(("a"), ({1, 2} : Finset WS))] ("a")
        (fun w => w == 2)).1 ("a") := by
  have h := broadcast_delivery_and_stale_cleanup
    [(("a"), ({1, 2} : Finset WS))] ("a") (fun w => w == 2) (by decide)
  exact ⟨h.2.1 2 (by decide) (by decide), h.2.2.1 1 (by decide) (by decide)⟩

/-- C6: in every registry state reachable by any sequence of `connect`,
`disconnect` and `notify_clients` (including the stale-connection cleanup),
every tenant key present maps to a non-empty socket set; in particular,
when removing a socket leaves the tenant's set empty, `disconnect` drops
the tenant's entry. -/
theorem registry_nonempty_invariant (r : Registry) (h : Reachable r) :
    (∀ kv ∈ r, (kv.2 : Finset WS).Nonempty) ∧
    (∀ t w, getSet r t = {w} → lookupKey (disconnect r t w) t = none) := by
  constructor
  · induction h with
    | init =>
      intro kv hkv
      simp at hkv
    | conn r t w _ ih => exact goodReg_connect t w ih
    | disc r t w _ ih => exact goodReg_disconnect t w ih
    | bcast r t fails _ ih => exact goodReg_notify t fails ih
  · intro t w hgs
    have hlk : lookupKey r t = some ({w} : Finset WS) := by
      cases hl : lookupKey r t with
      | none =>
        exfalso
        simp [getSet, hl] at hgs
        exact Finset.singleton_ne_empty w hgs.symm
      | some s =>
        simp [getSet, hl] at hgs
        rw [hgs]
    simp [disconnect, hlk, Finset.erase_singleton, lookupKey_popKey_self]

theorem registry_nonempty_invariant_witness :
    ((("a"), ({1} : Finset WS)).2 : Finset WS).Nonempty ∧
    lookupKey (disconnect (connect [] ("a") 1) ("a") 1) ("a") = none := by
  have h := registry_nonempty_invariant (connect [] ("a") 1)
    (Reachable.conn [] ("a") 1 Reachable.init)
  exact ⟨h.1 (("a"), ({1} : Finset WS)) (by decide), h.2 ("a") 1 (by decide)⟩

/-- C8: for every environment (anyio availability, loop binding, running
loop, and any exception arising while the broadcast coroutine actually
runs), `notify_clients_sync` returns normally to its caller — the fallback
dispatch strategies swallow delivery failures: a fire-and-forget task's
exception is unobserved, and the background thread's `_runner` catches
every exception. -/
theorem notify_clients_sync_never_raises (env : SyncEnv) :
    (∃ s, notify_clients_sync env = Except.ok s) ∧
    runnerResult env.deliveryExc = Except.ok () := by
  refine ⟨?_, ?_⟩
  · obtain ⟨a, b, d, l⟩ := env
    cases a <;> cases b <;> cases l <;> rcases d with _ | e <;>
      first
        | exact ⟨Strategy.anyioBridge, rfl⟩
        | exact ⟨Strategy.createTask, rfl⟩
        | exact ⟨Strategy.backgroundThread, rfl⟩
        | (cases e <;>
            first
              | exact ⟨Strategy.anyioBridge, rfl⟩
              | exact ⟨Strategy.createTask, rfl⟩
              | exact ⟨Strategy.backgroundThread, rfl⟩)
  · cases hd : env.deliveryExc <;> rfl

/-- C9: atomicity and raises-iff of `_save_message`: a call raises exactly
when the insert path is taken and the add/commit fails; a failed call rolls
back, leaving the persisted state unchanged; a successful call returns a
row present in the resulting table (the freshly committed row, or the
pre-existing one on the duplicate path). -/
theorem save_message_rollback_and_reraise (db : DB) (cf : Bool) (t : String)
    (mid : Option String) (phone : String) (text : Option String)
    (mtype dir : String) (cname : Option String)
    (md : Option (List (String × String))) :
    (∀ e, (save_message db cf t mid phone text mtype dir cname md).2
        = Except.error e →
      (save_message db cf t mid phone text mtype dir cname md).1 = db) ∧
    ((save_message db cf t mid phone text mtype dir cname md).2
        = Except.error ()
      ↔ cf = true ∧ dupLookup db t mid = none) ∧
    (∀ m, (save_message db cf t mid phone text mtype dir cname md).2
        = Except.ok m →
      m ∈ (save_message db cf t mid phone text mtype dir cname md).1.rows) := by
  cases hd : dupLookup db t mid with
  | some existing =>
    rw [save_message_dup db cf t mid phone text mtype dir cname md existing hd]
    refine ⟨?_, ?_, ?_⟩
    · intro e' he'
      simp at he'
    · simp [hd]
    · intro m hm
      simp at hm
      rw [← hm]
      exact dupLookup_mem hd
  | none =>
    cases cf with
    | true =>
      have e : save_message db true t mid phone text mtype dir cname md
          = (db, Except.error ()) := by
        simp [save_message, hd]
      rw [e]
      refine ⟨fun _ _ => rfl, ?_, ?_⟩
      · simp [hd]
      · intro m hm
        simp at hm
    | false =>
      rw [save_message_insert db t mid phone text mtype dir cname md hd]
      refine ⟨?_, ?_, ?_⟩
      · intro e' he'
        simp at he'
      · simp
      · intro m hm
        simp at hm
        rw [← hm]
        simp

theorem save_message_rollback_and_reraise_witness :
    (save_message DB.empty true ("t1") (some ("w1")) ("911") none
        ("text") ("incoming") none none).1 = DB.empty ∧
    (save_message DB.empty true ("t1") (some ("w1")) ("911") none
        ("text") ("incoming") none none).2 = Except.error () := by
  have h := save_message_rollback_and_reraise DB.empty true ("t1")
    (some ("w1")) ("911") none ("text") ("incoming") none none
  have he : (save_message DB.empty true ("t1") (some ("w1")) ("911") none
      ("text") ("incoming") none none).2 = Except.error () :=
    h.2.1.mpr ⟨rfl, by decide⟩
  exact ⟨h.1 () he, he⟩

/-- C1 counterexample: the claim quantifies over every non-null message_id,
but `_save_message` guards its duplicate lookup with Python truthiness
(`if message_id:`), so the non-null but empty message_id `""` never hits
the lookup: after one ingest a row with (tenant `"t1"`, message_id `""`)
already exists, yet a second identical ingest takes the insert path, trips
the unique index on `messages.message_id` at commit, and raises after
rollback — it does not return the existing row unchanged (the table does
stay at one row, the index rejecting the duplicate). -/
theorem save_idempotency_fails_on_empty_message_id :
    countMatching
      (save_incoming_message_pg DB.empty false ("t1") (some ("")) ("911")
        none none ("text") none).1.rows ("t1") ("") = 1 ∧
    (save_incoming_message_pg
      (save_incoming_message_pg DB.empty false ("t1") (some ("")) ("911")
        none none ("text") none).1
      false ("t1") (some ("")) ("911") none none ("text") none).2
      = Except.error () ∧
    (save_incoming_message_pg
      (save_incoming_message_pg DB.empty false ("t1") (some ("")) ("911")
        none none ("text") none).1
      false ("t1") (some ("")) ("911") none none ("text") none).1
      = (save_incoming_message_pg DB.empty false ("t1") (some ("")) ("911")
        none none ("text") none).1 :=
  ⟨rfl, rfl, rfl⟩

/-- C1 (amended): under the program's schema (unique index on message_id),
message persistence is idempotent for a fixed non-null, non-empty
message_id under sequential calls: when a row with (tenant_id, message_id)
already exists, `save_incoming_message` / `_save_message` inserts no new
row and returns the existing row unchanged; ingesting the same incoming
message twice starting from a table with no row carrying that message_id
leaves exactly one matching row, with direction "incoming", and the second
call returns the same database and row as the first.  (For the non-null
but empty message_id `""` the truthiness guard skips the lookup and the
second call raises from the unique index instead of returning the
existing row.) -/
theorem save_incoming_idempotent_nonempty_id (db : DB) (t mid phone : String)
    (cname text : Option String) (mtype : String)
    (md : Option (List (String × String))) (hmid : mid ≠ "") :
    (∀ m, firstMatch db.rows t mid = some m →
      save_incoming_message_pg db false t (some mid) phone cname text mtype
          md
        = (db, Except.ok m)) ∧
    (uniqueViolation db (some mid) = false →
      save_incoming_message_pg
          (save_incoming_message_pg db false t (some mid) phone cname text
            mtype md).1
          false t (some mid) phone cname text mtype md
        = save_incoming_message_pg db false t (some mid) phone cname text
            mtype md ∧
      countMatching
        (save_incoming_message_pg db false t (some mid) phone cname text
          mtype md).1.rows t mid = 1 ∧
      (∀ m ∈ ((save_incoming_message_pg db false t (some mid) phone cname
          text mtype md).1.rows.filter (matchesKey t mid)),
        m.direction = ("incoming"))) := by
  have htruthy : strTruthy (some mid) = true := by
    simp [strTruthy, hmid]
  constructor
  · intro m hm
    have hd : dupLookup db t (some mid) = some m := by
      simp [dupLookup, htruthy, hm]
    rw [save_incoming_message_pg, save_message_pg]
    exact save_message_dup db _ t (some mid) phone text mtype ("incoming")
      cname md m hd
  · intro hu
    have h0 : firstMatch db.rows t mid = none :=
      firstMatch_eq_none_of_no_collision db t mid hu
    have hd : dupLookup db t (some mid) = none := by
      simp [dupLookup, htruthy, h0]
    have e1 : save_incoming_message_pg db false t (some mid) phone cname text
        mtype md
        = ({ rows := db.rows ++
              [saveRow db t (some mid) phone text mtype ("incoming") cname md],
             nextId := db.nextId + 1 },
           Except.ok
             (saveRow db t (some mid) phone text mtype ("incoming") cname
               md)) := by
      rw [save_incoming_message_pg, save_message_pg, hu]
      exact save_message_insert db t (some mid) phone text mtype ("incoming")
        cname md hd
    have hmk : matchesKey t mid
        (saveRow db t (some mid) phone text mtype ("incoming") cname md)
        = true := by
      simp [matchesKey, saveRow]
    have hfm1 : firstMatch
        (db.rows ++
          [saveRow db t (some mid) phone text mtype ("incoming") cname md])
        t mid
        = some (saveRow db t (some mid) phone text mtype ("incoming") cname
            md) := by
      rw [firstMatch_append_of_none db.rows _ t mid h0, firstMatch,
        List.find?_cons_of_pos _ hmk]
    have hcount := countMatching_append_single_of_none db.rows t mid
      (saveRow db t (some mid) phone text mtype ("incoming") cname md) h0 hmk
    refine ⟨?_, ?_, ?_⟩
    · rw [e1]
      have hd2 : dupLookup
          ({ rows := db.rows ++
              [saveRow db t (some mid) phone text mtype ("incoming") cname md],
             nextId := db.nextId + 1 } : DB) t (some mid)
          = some (saveRow db t (some mid) phone text mtype ("incoming") cname
              md) := by
        simp only [dupLookup, htruthy, if_true]
        exact hfm1
      rw [save_incoming_message_pg, save_message_pg]
      exact save_message_dup _ _ t (some mid) phone text mtype
        ("incoming") cname md _ hd2
    · rw [e1]
      exact hcount.1
    · rw [e1]
      intro m hm
      rw [hcount.2] at hm
      simp at hm
      rw [hm, saveRow]

theorem save_incoming_idempotent_nonempty_id_witness :
    save_incoming_message_pg
        (save_incoming_message_pg DB.empty false ("t1") (some ("wamid.ABC"))
          ("919876543210") none (some ("hello")) ("text") none).1
        false ("t1") (some ("wamid.ABC")) ("919876543210") none
        (some ("hello")) ("text") none
      = save_incoming_message_pg DB.empty false ("t1") (some ("wamid.ABC"))
          ("919876543210") none (some ("hello")) ("text") none ∧
    countMatching
      (save_incoming_message_pg DB.empty false ("t1") (some ("wamid.ABC"))
        ("919876543210") none (some ("hello")) ("text") none).1.rows
      ("t1") ("wamid.ABC") = 1 := by
  have h := (save_incoming_idempotent_nonempty_id DB.empty ("t1")
    ("wamid.ABC") ("919876543210") none (some ("hello")) ("text") none
    (by decide)).2 (by decide)
  exact ⟨h.1, h.2.1⟩
